import Mathlib

/-
Verification of `torch/csrc/autograd/function.cpp`: the flag resolver
(`makeFlags` and the `Function::flags` overloads), the trace bridge
(`Function::tracedApply`) and the context-edge linker
(`Function::setUpContextEdge`), shallowly embedded in Lean 4.
-/

namespace torch.autograd

/-- Shallow embedding of the autograd `Variable` handle as consumed by
`function.cpp`: `defined()`, `requires_grad()`, `is_volatile()`, `grad_fn()`
(a possibly-null pointer, encoded as `Option Nat` over node identities),
`output_nr()`, `grad_accumulator()` (also possibly null) and the underlying
tensor payload `data()` used by `inferTypeFrom`. -/
structure Variable where
  defined : Bool
  requires_grad : Bool
  is_volatile : Bool
  grad_fn : Option Nat
  output_nr : Nat
  grad_accumulator : Option Nat
  data : Nat
  deriving DecidableEq

/-- Shallow embedding of `FunctionFlags`: the executability and volatility
bits plus the `next_functions` edge table, one pair
`(target function pointer, output slot)` per input.  A default-constructed
entry (as produced by `resize`) is `(none, 0)`. -/
structure FunctionFlags where
  is_executable : Bool
  is_volatile : Bool
  next_functions : List (Option Nat × Nat)
  deriving DecidableEq

/-- The body of the input loop of `makeFlags` (function.cpp lines 20-40):
iterates over the inputs with a running index `i`, ORs the
`requires_grad` / `is_volatile` bits of every defined input into the flags,
and writes that input's edge into `next_functions[i]` (producing node at its
output slot when `grad_fn()` is non-null, otherwise the gradient accumulator
at slot 0).  Undefined inputs leave their slot untouched. -/
def makeFlagsLoop (i : Nat) (vars : List Variable) (f : FunctionFlags) :
    FunctionFlags :=
  match vars with
  | [] => f
  | var :: rest =>
      let f2 :=
        if var.defined then
          let f1 :=
            { f with
              is_executable := f.is_executable || var.requires_grad,
              is_volatile := f.is_volatile || var.is_volatile }
          if var.grad_fn.isSome then
            { f1 with
              next_functions :=
                f1.next_functions.set i (var.grad_fn, var.output_nr) }
          else
            { f1 with
              next_functions :=
                f1.next_functions.set i (var.grad_accumulator, 0) }
        else f
      makeFlagsLoop (i + 1) rest f2

/-- Shallow embedding of `makeFlags` (function.cpp lines 14-45): initialise
both flags to `false`, resize `next_functions` to the input count, run the
input loop, and finally mask `is_executable` with `!is_volatile`. -/
def makeFlags (inputs : List Variable) : FunctionFlags :=
  let num_inputs := inputs.length
  let f0 : FunctionFlags :=
    { is_executable := false,
      is_volatile := false,
      next_functions := List.replicate num_inputs ((none : Option Nat), 0) }
  let f := makeFlagsLoop 0 inputs f0
  { f with is_executable := f.is_executable && !f.is_volatile }

/-- The edge that `makeFlags` records for a single input: for a defined
input, the producing node at its output slot when present, otherwise the
gradient accumulator at slot 0; for an undefined input the
default-constructed entry. -/
def edgeOf (var : Variable) : Option Nat × Nat :=
  if var.defined then
    if var.grad_fn.isSome then (var.grad_fn, var.output_nr)
    else (var.grad_accumulator, 0)
  else (none, 0)

/-- Embedding of `Function::flags(const variable_list&)` (function.cpp
line 47): delegates to `makeFlags`. -/
def Function.flags (inputs : List Variable) : FunctionFlags :=
  makeFlags inputs

/-- Embedding of `Function::flags(const std::initializer_list<Variable>&)`
(function.cpp line 49): iterates the same element sequence and delegates to
`makeFlags`. -/
def Function.flagsInitializerList (inputs : List Variable) : FunctionFlags :=
  makeFlags inputs

/-- The `variable_list(inputs.begin(), inputs.end())` range-copy performed by
the `at::TensorList` overload: copies the elements in iteration order. -/
def variableListOfRange (inputs : List Variable) : List Variable :=
  inputs.foldr (fun v acc => v :: acc) []

/-- Embedding of `Function::flags(at::TensorList)` (function.cpp lines
51-54): copies the tensor range into a `variable_list` and delegates to
`makeFlags`. -/
def Function.flagsTensorList (inputs : List Variable) : FunctionFlags :=
  makeFlags (variableListOfRange inputs)

/-- Abstract descriptor of one saved value, as listed by
`saved_variables()`; the external `unpack` collaborator interprets it
against the owning function. -/
abbrev SavedVariable := Nat

/-- Trace-graph value types: the opaque handle type assigned by
`setUpContextEdge`, or a type inferred from a concrete tensor payload by
`inferTypeFrom`. -/
inductive JitType where
  | handle
  | inferred (data : Nat)
  deriving DecidableEq

/-- Trace-graph node kinds: a `CppOp` wrapping an autograd function, or a
select node projecting one output slot of another node. -/
inductive NodeKind where
  | cppOp (fn : Nat)
  | select (node : Nat) (index : Nat)
  deriving DecidableEq

/-- One trace-graph node: its kind, its input edges (trace-node pointers,
possibly null) in `addInput` order, and its optional type. -/
structure JitNode where
  kind : NodeKind
  inputs : List (Option Nat)
  type : Option JitType
  deriving DecidableEq

/-- The trace graph: a heap of allocated nodes (`store`, node identities are
allocation indices) and the order in which nodes were appended to the graph
(`order`).  `createCppOp` and `createSelect` allocate into `store`;
`appendNode` appends the identity to `order`. -/
structure Graph where
  store : List JitNode
  order : List Nat
  deriving DecidableEq

/-- Default node, used only to totalise heap reads. -/
def defaultJitNode : JitNode :=
  { kind := .cppOp 0, inputs := [], type := none }

/-- The `node->addInput(v)` mutation: append `v` to the node's input list. -/
def Graph.addInput (g : Graph) (id : Nat) (v : Option Nat) : Graph :=
  { g with
    store := g.store.set id
      (let nd := g.store.getD id defaultJitNode
       { nd with inputs := nd.inputs ++ [v] }) }

/-- The `node->setType(t)` / `node->inferTypeFrom(data)` mutation: set the
node's type. -/
def Graph.setNodeType (g : Graph) (id : Nat) (t : JitType) : Graph :=
  { g with
    store := g.store.set id
      (let nd := g.store.getD id defaultJitNode
       { nd with type := some t }) }

/-- Modelled from the spec: the ambient `TraceState` whose declaration lives
in headers not present in this repository (`tracer::getTracingState` and the
`tracing_state` member read by `tracedApply`).  Per the spec it holds the
trace graph, an exclusive section, and the flag marking "currently inside a
checkpointed subgraph" (`in_eval_subgraph`), plus the value-to-trace-node
bookkeeping updated by `tracer::setValueTrace`. -/
structure TracingState where
  graph : Graph
  in_eval_subgraph : Bool
  valueTraces : List (Variable × Nat)

/-- The mutable world crossed by `tracedApply`: the tracing state plus the
heap of `forward_ctx_select` fields of all live Eval objects (the field that
`setUpContextEdge` assigns through the `Eval::getBackwardEval` registry). -/
structure TraceWorld where
  state : TracingState
  evalFcs : Nat → Option Nat

/-- External collaborators consumed by `tracedApply` and `setUpContextEdge`:
`tracer::getValueTrace` (resolve an input value to its trace node),
`SavedVariable::unpack` (called with the owning function's shared pointer),
and the `Eval::getBackwardEval` registry lookup keyed by the inputs and
outputs. -/
structure TraceEnv where
  getValueTrace : TracingState → Variable → Option Nat
  unpack : SavedVariable → Nat → Variable
  getBackwardEval : List Variable → List Variable → Option Nat

/-- Observable events of one `tracedApply` run, in program order: exclusive
section acquire and release, trace-graph or trace-state mutation, the
underlying `apply` call, the `saved_variables()` call, the external
`tracer::nontraceableBackwardSubgraph` call, and the `setUpContextEdge`
call. -/
inductive TraceEvent where
  | acquire
  | release
  | mutate
  | applyCall (inputs : List Variable)
  | savedVariablesCall
  | markNontraceableBackward (bw_inputs : List Variable)
      (outputs : List Variable)
  | contextEdgeSetup
  deriving DecidableEq

/-- Is the event a lock operation or the underlying `apply` call? -/
def TraceEvent.touchesLockOrApply : TraceEvent → Bool
  | .acquire => true
  | .release => true
  | .applyCall _ => true
  | _ => false

/-- Shallow embedding of an autograd `Function` object as used by
`tracedApply`: its identity (`getSharedPtr`), its forward computation
`apply`, the capability bits `is_traceable()` and
`passes_state_transparently()`, the optional `saved_variables()` result, its
`name()`, whether `dynamic_cast<Eval*>` succeeds on it, and (meaningful for
Eval objects only) the `forward_ctx_select` trace-node pointer. -/
structure Function where
  id : Nat
  apply : List Variable → List Variable
  is_traceable : Bool
  passes_state_transparently : Bool
  saved_variables : Option (List SavedVariable)
  name : String
  is_eval : Bool
  forward_ctx_select : Option Nat

/-- Embedding of `Function::setUpContextEdge` (function.cpp lines 120-127):
append a select node over `node` at slot `ctx_output_nr`, set its type to
the opaque handle type, look up the backward-capture Eval through
`Eval::getBackwardEval(inputs, outputs)` and, when one is found, assign its
`forward_ctx_select` field to the new select node.  Returns the updated
graph and Eval heap. -/
def setUpContextEdge
    (getBackwardEval : List Variable → List Variable → Option Nat)
    (g : Graph) (evalFcs : Nat → Option Nat) (node : Nat)
    (ctx_output_nr : Nat) (inputs outputs : List Variable) :
    Graph × (Nat → Option Nat) :=
  let ctx_select := g.store.length
  let g1 : Graph :=
    { store := g.store
        ++ [{ kind := .select node ctx_output_nr, inputs := [],
              type := none }],
      order := g.order ++ [ctx_select] }
  let g2 := g1.setNodeType ctx_select .handle
  match getBackwardEval inputs outputs with
  | some backward_eval =>
      (g2, fun e => if e = backward_eval then some ctx_select else evalFcs e)
  | none => (g2, evalFcs)

/-- Result of the `!passes_state_transparently()` tail of `tracedApply`: the
optional thrown error message, the updated graph and Eval heap, and the
events it emitted. -/
structure BlockResult where
  err : Option String
  graph : Graph
  evalFcs : Nat → Option Nat
  events : List TraceEvent

/-- Embedding of the `!passes_state_transparently()` block of
`Function::tracedApply` (function.cpp lines 96-116): an Eval feeds its
`forward_ctx_select` as an extra input of the composite node;
`should_trace_backward` is read from the ambient state's
`in_eval_subgraph`; when `!should_trace_backward` the backward-subgraph
capture runs (`saved_variables()`, unpacking each saved value against the
owning function, `tracer::nontraceableBackwardSubgraph` on the extended
input list), throwing when `saved_variables()` is not implemented; finally
`setUpContextEdge` is called when
`has_backwards_eval = !should_trace_backward || this_eval`. -/
def backwardCaptureBlock (env : TraceEnv) (fn : Function)
    (in_eval_subgraph : Bool) (g0 : Graph) (evalFcs : Nat → Option Nat)
    (this_node : Nat) (num_outputs : Nat)
    (inputs outputs : List Variable) : BlockResult :=
  if fn.passes_state_transparently then
    { err := none, graph := g0, evalFcs := evalFcs, events := [] }
  else
    let g1 :=
      if fn.is_eval then g0.addInput this_node fn.forward_ctx_select else g0
    let evEval :=
      if fn.is_eval then [TraceEvent.mutate] else ([] : List TraceEvent)
    let should_trace_backward := in_eval_subgraph
    if should_trace_backward then
      -- capture skipped; has_backwards_eval reduces to this_eval
      if fn.is_eval then
        let p := setUpContextEdge env.getBackwardEval g1 evalFcs this_node
          num_outputs inputs outputs
        { err := none, graph := p.1, evalFcs := p.2,
          events := evEval
            ++ [TraceEvent.contextEdgeSetup, TraceEvent.mutate] }
      else
        { err := none, graph := g1, evalFcs := evalFcs, events := evEval }
    else
      match fn.saved_variables with
      | none =>
          { err := some
              ("saved_variables() needed but not implemented in " ++ fn.name),
            graph := g1, evalFcs := evalFcs,
            events := evEval ++ [TraceEvent.savedVariablesCall] }
      | some saved_vars =>
          let bw_subgraph_inputs :=
            inputs
              ++ saved_vars.map (fun saved_var => env.unpack saved_var fn.id)
          -- has_backwards_eval reduces to true here
          let p := setUpContextEdge env.getBackwardEval g1 evalFcs this_node
            num_outputs inputs outputs
          { err := none, graph := p.1, evalFcs := p.2,
            events := evEval
              ++ [TraceEvent.savedVariablesCall,
                  TraceEvent.markNontraceableBackward bw_subgraph_inputs
                    outputs,
                  TraceEvent.contextEdgeSetup, TraceEvent.mutate] }

/-- The composite-node insertion of `tracedApply` (function.cpp lines
71-76): `createCppOp(getSharedPtr())`, the `addInput` loop over the value
traces of the inputs, and `appendNode`. -/
def insertCppOp (env : TraceEnv) (st : TracingState) (fn : Function)
    (inputs : List Variable) : Graph :=
  let this_node := st.graph.store.length
  let gA : Graph :=
    { store := st.graph.store
        ++ [{ kind := .cppOp fn.id, inputs := [], type := none }],
      order := st.graph.order }
  let gB := inputs.foldl
    (fun g input => g.addInput this_node (env.getValueTrace st input)) gA
  { gB with order := gB.order ++ [this_node] }

/-- The output-trace loop of `tracedApply` (function.cpp lines 84-94): for
each output (by position) append a select node projecting the composite
node's slot; for defined outputs infer the node type from the output's data
and record the value-to-trace association. -/
def insertSelects (this_node : Nat) (outputs : List Variable) (g : Graph)
    (vts : List (Variable × Nat)) : Graph × List (Variable × Nat) :=
  outputs.enum.foldl
    (fun p oi =>
      let sel := p.1.store.length
      let g1 : Graph :=
        { store := p.1.store
            ++ [{ kind := .select this_node oi.1, inputs := [],
                  type := none }],
          order := p.1.order ++ [sel] }
      if oi.2.defined then
        (g1.setNodeType sel (.inferred oi.2.data), p.2 ++ [(oi.2, sel)])
      else (g1, p.2))
    (g, vts)

/-- Result of one `tracedApply` run: the returned outputs or the thrown
error, the final world, and the emitted event sequence. -/
structure TracedResult where
  result : Except String (List Variable)
  world : TraceWorld
  events : List TraceEvent

/-- Embedding of `Function::tracedApply` (function.cpp lines 62-118).
Traceable functions bypass bridging and call `apply` directly.  Otherwise:
acquire the trace state's exclusive section, insert the composite node,
release the section, call `apply`, reacquire the section, insert the output
selects, run the backward-capture block, and return the outputs (or
propagate the thrown error); the section is released when the lock guard
leaves scope. -/
def tracedApply (env : TraceEnv) (fn : Function) (w : TraceWorld)
    (inputs : List Variable) : TracedResult :=
  if fn.is_traceable then
    { result := .ok (fn.apply inputs), world := w, events := [] }
  else
    let st := w.state
    let this_node := st.graph.store.length
    let gC := insertCppOp env st fn inputs
    let outputs := fn.apply inputs
    let pSel := insertSelects this_node outputs gC st.valueTraces
    let blk := backwardCaptureBlock env fn st.in_eval_subgraph pSel.1
      w.evalFcs this_node outputs.length inputs outputs
    { result :=
        match blk.err with
        | some msg => .error msg
        | none => .ok outputs,
      world :=
        { state :=
            { graph := blk.graph,
              in_eval_subgraph := st.in_eval_subgraph,
              valueTraces := pSel.2 },
          evalFcs := blk.evalFcs },
      events := TraceEvent.acquire
        :: (TraceEvent.mutate
            :: (List.replicate inputs.length TraceEvent.mutate
                ++ [TraceEvent.mutate]))
        ++ [TraceEvent.release, TraceEvent.applyCall inputs,
            TraceEvent.acquire]
        ++ List.replicate outputs.length TraceEvent.mutate
        ++ blk.events ++ [TraceEvent.release] }

/-- An undefined input whose semantic `requires_grad` field is nonetheless
set; `makeFlags` never reads the bit because the input is undefined. -/
def undefinedReqGrad : Variable :=
  { defined := false, requires_grad := true, is_volatile := false,
    grad_fn := none, output_nr := 0, grad_accumulator := none, data := 0 }

/-- A defined leaf input (no producing node) that requires gradients and is
not volatile. -/
def leafReqGrad : Variable :=
  { defined := true, requires_grad := true, is_volatile := false,
    grad_fn := none, output_nr := 0, grad_accumulator := some 7, data := 0 }

/-- A defined non-leaf input produced by node 3 at output slot 1. -/
def producedVar : Variable :=
  { defined := true, requires_grad := true, is_volatile := false,
    grad_fn := some 3, output_nr := 1, grad_accumulator := none, data := 5 }

/-- A trace environment with trivial external collaborators. -/
def env0 : TraceEnv :=
  { getValueTrace := fun _ _ => none,
    unpack := fun _ _ => producedVar,
    getBackwardEval := fun _ _ => none }

/-- An empty tracing world, not nested inside any Eval subgraph. -/
def world0 : TraceWorld :=
  { state :=
      { graph := { store := [], order := [] },
        in_eval_subgraph := false, valueTraces := [] },
    evalFcs := fun _ => none }

/-- A tracing world whose ambient state is already nested inside another
Eval subgraph. -/
def worldNested : TraceWorld :=
  { state :=
      { graph := { store := [], order := [] },
        in_eval_subgraph := true, valueTraces := [] },
    evalFcs := fun _ => none }

/-- A traceable function with identity forward computation. -/
def fnTraceable : Function :=
  { id := 0, apply := fun l => l, is_traceable := true,
    passes_state_transparently := false, saved_variables := none,
    name := "TraceableOp", is_eval := false, forward_ctx_select := none }

/-- A non-traceable, non-transparent function that does not implement
`saved_variables()`. -/
def fnNoSaved : Function :=
  { id := 1, apply := fun _ => [], is_traceable := false,
    passes_state_transparently := false, saved_variables := none,
    name := "NoSavedOp", is_eval := false, forward_ctx_select := none }

/-- A non-traceable, non-transparent, non-Eval function with one saved
variable. -/
def fnSaved : Function :=
  { id := 2, apply := fun _ => [], is_traceable := false,
    passes_state_transparently := false, saved_variables := some [0],
    name := "SavedOp", is_eval := false, forward_ctx_select := none }

lemma makeFlagsLoop_is_volatile (vars : List Variable) :
    ∀ (i : Nat) (f : FunctionFlags),
      (makeFlagsLoop i vars f).is_volatile
        = (f.is_volatile || vars.any fun v => v.defined && v.is_volatile) := by
  induction vars with
  | nil => intro i f; simp [makeFlagsLoop]
  | cons var rest ih =>
      intro i f
      by_cases hd : var.defined = true
      · by_cases hg : var.grad_fn.isSome = true
        · simp [makeFlagsLoop, hd, hg, ih, Bool.or_assoc]
        · simp [makeFlagsLoop, hd, hg, ih, Bool.or_assoc]
      · simp [makeFlagsLoop, hd, ih]

lemma makeFlagsLoop_is_executable (vars : List Variable) :
    ∀ (i : Nat) (f : FunctionFlags),
      (makeFlagsLoop i vars f).is_executable
        = (f.is_executable
            || vars.any fun v => v.defined && v.requires_grad) := by
  induction vars with
  | nil => intro i f; simp [makeFlagsLoop]
  | cons var rest ih =>
      intro i f
      by_cases hd : var.defined = true
      · by_cases hg : var.grad_fn.isSome = true
        · simp [makeFlagsLoop, hd, hg, ih, Bool.or_assoc]
        · simp [makeFlagsLoop, hd, hg, ih, Bool.or_assoc]
      · simp [makeFlagsLoop, hd, ih]

lemma set_cons_append {α : Type} (pre : List α) (x y : α) (t : List α) :
    (pre ++ x :: t).set pre.length y = pre ++ y :: t := by
  induction pre with
  | nil => rfl
  | cons a l ih =>
      show a :: (l ++ x :: t).set l.length y = a :: (l ++ y :: t)
      rw [ih]

lemma getD_cons_append {α : Type} (pre : List α) (x : α) (t : List α)
    (d : α) :
    (pre ++ x :: t).getD pre.length d = x := by
  induction pre with
  | nil => rfl
  | cons a l ih =>
      show (l ++ x :: t).getD l.length d = x
      exact ih

lemma makeFlagsLoop_next (vars : List Variable) :
    ∀ (pre : List (Option Nat × Nat)) (f : FunctionFlags),
      f.next_functions
        = pre ++ List.replicate vars.length ((none : Option Nat), 0) →
      (makeFlagsLoop pre.length vars f).next_functions
        = pre ++ vars.map edgeOf := by
  induction vars with
  | nil => intro pre f h; simpa [makeFlagsLoop] using h
  | cons var rest ih =>
      intro pre f h
      have hrep : List.replicate (var :: rest).length ((none : Option Nat), 0)
          = ((none : Option Nat), 0)
              :: List.replicate rest.length ((none : Option Nat), 0) := rfl
      rw [hrep] at h
      by_cases hd : var.defined = true
      · by_cases hg : var.grad_fn.isSome = true
        · have h2 : (f.next_functions.set pre.length
                (var.grad_fn, var.output_nr))
              = (pre ++ [(var.grad_fn, var.output_nr)])
                  ++ List.replicate rest.length ((none : Option Nat), 0) := by
            rw [h, set_cons_append]
            simp
          have h3 := ih (pre ++ [(var.grad_fn, var.output_nr)])
            { is_executable := f.is_executable || var.requires_grad,
              is_volatile := f.is_volatile || var.is_volatile,
              next_functions :=
                f.next_functions.set pre.length (var.grad_fn, var.output_nr) }
            h2
          simp only [List.length_append, List.length_singleton] at h3
          simp [makeFlagsLoop, hd, hg, h3, edgeOf]
        · have h2 : (f.next_functions.set pre.length
                (var.grad_accumulator, 0))
              = (pre ++ [(var.grad_accumulator, 0)])
                  ++ List.replicate rest.length ((none : Option Nat), 0) := by
            rw [h, set_cons_append]
            simp
          have h3 := ih (pre ++ [(var.grad_accumulator, 0)])
            { is_executable := f.is_executable || var.requires_grad,
              is_volatile := f.is_volatile || var.is_volatile,
              next_functions :=
                f.next_functions.set pre.length (var.grad_accumulator, 0) }
            h2
          simp only [List.length_append, List.length_singleton] at h3
          simp [makeFlagsLoop, hd, hg, h3, edgeOf]
      · have h2 : f.next_functions
            = (pre ++ [((none : Option Nat), 0)])
                ++ List.replicate rest.length ((none : Option Nat), 0) := by
          rw [h]; simp
        have h3 := ih (pre ++ [((none : Option Nat), 0)]) _ h2
        simp only [List.length_append, List.length_singleton] at h3
        simp [makeFlagsLoop, hd, h3, edgeOf]

lemma makeFlags_is_volatile (inputs : List Variable) :
    (makeFlags inputs).is_volatile
      = inputs.any fun v => v.defined && v.is_volatile := by
  simp [makeFlags, makeFlagsLoop_is_volatile]

lemma makeFlags_is_executable (inputs : List Variable) :
    (makeFlags inputs).is_executable
      = ((inputs.any fun v => v.defined && v.requires_grad)
          && !(inputs.any fun v => v.defined && v.is_volatile)) := by
  simp [makeFlags, makeFlagsLoop_is_executable, makeFlagsLoop_is_volatile]

lemma makeFlags_next (inputs : List Variable) :
    (makeFlags inputs).next_functions = inputs.map edgeOf := by
  have h := makeFlagsLoop_next inputs []
      { is_executable := false, is_volatile := false,
        next_functions :=
          List.replicate inputs.length ((none : Option Nat), 0) } (by simp)
  simpa [makeFlags] using h

lemma variableListOfRange_eq (inputs : List Variable) :
    variableListOfRange inputs = inputs := by
  induction inputs with
  | nil => rfl
  | cons a l ih =>
      show a :: variableListOfRange l = a :: l
      rw [ih]

/-- Claim C1, counterexample: on the single-element sequence holding an
undefined input whose `requires_grad` field is `true`, `makeFlags` returns
`isExecutable = false`, while the claimed invariant
`isExecutable == (any input requiresGrad) && !isVolatile` demands `true`:
the code only ORs the `requires_grad` of defined inputs. -/
theorem flags_requires_grad_counterexample :
    ¬ ((makeFlags [undefinedReqGrad]).is_executable
        = (([undefinedReqGrad].any fun v => v.requires_grad)
            && !(makeFlags [undefinedReqGrad]).is_volatile)) := by
  decide

/-- Claim C1 (amended): for every input sequence, `isVolatile` is true iff
some defined input is volatile, `isExecutable` equals
(some defined input requires grad) && !isVolatile, and the empty input
sequence yields `isExecutable = false`, `isVolatile = false` and an empty
edge table. -/
theorem flags_invariant (inputs : List Variable) :
    (makeFlags inputs).is_volatile
      = (inputs.any fun v => v.defined && v.is_volatile) ∧
    (makeFlags inputs).is_executable
      = ((inputs.any fun v => v.defined && v.requires_grad)
          && !(makeFlags inputs).is_volatile) ∧
    makeFlags []
      = { is_executable := false, is_volatile := false,
          next_functions := [] } := by
  refine ⟨makeFlags_is_volatile inputs, ?_, rfl⟩
  rw [makeFlags_is_executable, makeFlags_is_volatile]

/-- Claim C2: for every input sequence, the flags returned by `makeFlags`
never have `isExecutable` and `isVolatile` both true: `isExecutable` implies
not `isVolatile`. -/
theorem flags_executable_implies_not_volatile (inputs : List Variable)
    (h : (makeFlags inputs).is_executable = true) :
    (makeFlags inputs).is_volatile = false := by
  rw [makeFlags_is_executable] at h
  rw [makeFlags_is_volatile]
  rcases Bool.and_eq_true_iff.mp h with ⟨h1, h2⟩
  simpa using h2

/-- Witness for claim C2 at a concrete executable input. -/
theorem flags_executable_implies_not_volatile_witness :
    (makeFlags [leafReqGrad]).is_executable = true ∧
    (makeFlags [leafReqGrad]).is_volatile = false :=
  ⟨by decide, flags_executable_implies_not_volatile [leafReqGrad] (by decide)⟩

/-- Claim C3: the edge table produced by `makeFlags` has length equal to the
input count regardless of how many inputs are undefined; each defined input
with a producing node yields at its position the edge
`(producing node, output slot)`, each defined leaf input yields the edge
`(gradient accumulator, 0)`, and each undefined input leaves its positional
slot at the default entry. -/
theorem flags_edge_table (inputs : List Variable) :
    (makeFlags inputs).next_functions.length = inputs.length ∧
    ∀ i : Fin inputs.length,
      (makeFlags inputs).next_functions.getD i ((none : Option Nat), 0)
        = (if (inputs.get i).defined then
             if (inputs.get i).grad_fn.isSome then
               ((inputs.get i).grad_fn, (inputs.get i).output_nr)
             else ((inputs.get i).grad_accumulator, 0)
           else (none, 0)) := by
  rw [makeFlags_next]
  constructor
  · simp
  · intro i
    have hlt : i.val < inputs.length := i.isLt
    simp [List.getD, List.getElem?_map, List.get?_eq_get hlt, edgeOf]

/-- Claim C10: the three public `Function::flags` overloads — over a generic
variable list, over an initializer list of values, and over a generic tensor
list — return identical `FunctionFlags` for the same ordered sequence of
values, each delegating to the same `makeFlags` computation. -/
theorem flags_overloads_agree (inputs : List Variable) :
    Function.flags inputs = Function.flagsInitializerList inputs ∧
    Function.flags inputs = Function.flagsTensorList inputs := by
  refine ⟨rfl, ?_⟩
  show makeFlags inputs = makeFlags (variableListOfRange inputs)
  rw [variableListOfRange_eq]

/-- Claim C4: when no failure occurs, `tracedApply(inputs)` returns exactly
the output list produced by `apply(inputs)` — identical by value and by
count — on both the traceable fast path and the non-traceable bridged path;
the trace bridging never changes the outputs. -/
theorem tracedApply_preserves_outputs (env : TraceEnv) (fn : Function)
    (w : TraceWorld) (inputs outs : List Variable)
    (h : (tracedApply env fn w inputs).result = Except.ok outs) :
    outs = fn.apply inputs := by
  by_cases ht : fn.is_traceable = true
  · simp only [tracedApply, ht, if_true] at h
    exact (Except.ok.injEq _ _ |>.mp h).symm
  · simp only [tracedApply, ht, Bool.false_eq_true, if_false] at h
    split at h
    · exact absurd h (by simp)
    · exact (Except.ok.injEq _ _ |>.mp h).symm

/-- Witness for claim C4 on the traceable fast path at a concrete run. -/
theorem tracedApply_preserves_outputs_witness :
    ([] : List Variable) = fnTraceable.apply [] :=
  tracedApply_preserves_outputs env0 fnTraceable world0 [] [] rfl

/-- Claim C5: during `tracedApply` of a non-traceable node that does not
pass state transparently, when backward-subgraph capture is required (the
ambient state is not nested inside another Eval subgraph) and
`saved_variables()` returns nothing, the call fails with a propagated error
carrying the node's name. -/
theorem tracedApply_missing_saved_error (env : TraceEnv) (fn : Function)
    (w : TraceWorld) (inputs : List Variable)
    (h1 : fn.is_traceable = false)
    (h2 : fn.passes_state_transparently = false)
    (h3 : w.state.in_eval_subgraph = false)
    (h4 : fn.saved_variables = none) :
    (tracedApply env fn w inputs).result
      = Except.error
          ("saved_variables() needed but not implemented in " ++ fn.name) := by
  simp [tracedApply, backwardCaptureBlock, h1, h2, h3, h4]

/-- Witness for claim C5 at a concrete failing run. -/
theorem tracedApply_missing_saved_error_witness :
    (tracedApply env0 fnNoSaved world0 []).result
      = Except.error
          ("saved_variables() needed but not implemented in "
            ++ fnNoSaved.name) :=
  tracedApply_missing_saved_error env0 fnNoSaved world0 [] rfl rfl rfl rfl

/-- Claim C6, counterexample: the claim states that the backward capture
(`saved_variables()` call plus `tracer::nontraceableBackwardSubgraph`)
happens exactly when `shouldTraceBackward` is false, and that
`shouldTraceBackward` is false precisely when the ambient state is already
NESTED inside another Eval subgraph — i.e. capture happens exactly on nested
runs.  The code sets `should_trace_backward = in_eval_subgraph`, so a run
nested inside an Eval subgraph performs no capture at all, refuting the
claimed polarity at this concrete input. -/
theorem capture_polarity_counterexample :
    ¬ ((TraceEvent.savedVariablesCall
          ∈ (tracedApply env0 fnSaved worldNested []).events ∧
        TraceEvent.markNontraceableBackward
            (([] : List Variable) ++ [0].map fun s => env0.unpack s fnSaved.id)
            (fnSaved.apply [])
          ∈ (tracedApply env0 fnSaved worldNested []).events)
        ↔ worldNested.state.in_eval_subgraph = true) := by
  decide

/-- Claim C6 (amended): during `tracedApply` of a non-traceable node that
does not pass state transparently and implements `saved_variables()`, the
saved variables are retrieved, unpacked against the owning function and
appended to an extended input list handed to the external
mark-non-traceable-backward-subgraph collaborator, exactly when
`should_trace_backward` is false — where `should_trace_backward` is false
precisely when the ambient trace state reports the call is NOT nested inside
another checkpoint's (Eval) subgraph. -/
theorem tracedApply_capture_iff (env : TraceEnv) (fn : Function)
    (w : TraceWorld) (inputs : List Variable) (svs : List SavedVariable)
    (h1 : fn.is_traceable = false)
    (h2 : fn.passes_state_transparently = false)
    (h3 : fn.saved_variables = some svs) :
    (TraceEvent.savedVariablesCall
        ∈ (tracedApply env fn w inputs).events ∧
      TraceEvent.markNontraceableBackward
          (inputs ++ svs.map fun s => env.unpack s fn.id) (fn.apply inputs)
        ∈ (tracedApply env fn w inputs).events)
      ↔ w.state.in_eval_subgraph = false := by
  cases hn : w.state.in_eval_subgraph <;> cases he : fn.is_eval <;>
    simp [tracedApply, backwardCaptureBlock, h1, h2, h3, hn, he,
      List.mem_replicate]

/-- Witness for claim C6 (amended) at a concrete non-nested run. -/
theorem tracedApply_capture_iff_witness :
    (TraceEvent.savedVariablesCall
        ∈ (tracedApply env0 fnSaved world0 []).events ∧
      TraceEvent.markNontraceableBackward
          (([] : List Variable) ++ [0].map fun s => env0.unpack s fnSaved.id)
          (fnSaved.apply [])
        ∈ (tracedApply env0 fnSaved world0 []).events)
      ↔ world0.state.in_eval_subgraph = false :=
  tracedApply_capture_iff env0 fnSaved world0 [] [0] rfl rfl rfl

/-- Claim C7, counterexample: the claim states that a context edge is
established iff backward tracing was skipped or the node is an Eval.  The
code skips the backward capture precisely when the ambient state is nested
inside another Eval subgraph (`in_eval_subgraph = true`), yet on such a run
with a non-Eval node `setUpContextEdge` is NOT called
(`has_backwards_eval = !should_trace_backward || this_eval` is false),
refuting the claimed equivalence at this concrete input. -/
theorem context_edge_counterexample :
    ¬ ((TraceEvent.contextEdgeSetup
          ∈ (tracedApply env0 fnSaved worldNested []).events)
        ↔ (worldNested.state.in_eval_subgraph = true
            ∨ fnSaved.is_eval = true)) := by
  decide

/-- Claim C7 (amended): during a non-failing `tracedApply` of a
non-traceable node that does not pass state transparently, a context edge is
established (`setUpContextEdge` is called) if and only if the backward
capture was performed (`should_trace_backward` false, i.e. the ambient state
is not nested inside another Eval subgraph) or the node is itself an Eval;
in particular such an Eval node always receives a context edge regardless of
`should_trace_backward`. -/
theorem tracedApply_context_edge_iff (env : TraceEnv) (fn : Function)
    (w : TraceWorld) (inputs : List Variable) (svs : List SavedVariable)
    (h1 : fn.is_traceable = false)
    (h2 : fn.passes_state_transparently = false)
    (h3 : fn.saved_variables = some svs) :
    TraceEvent.contextEdgeSetup ∈ (tracedApply env fn w inputs).events
      ↔ (w.state.in_eval_subgraph = false ∨ fn.is_eval = true) := by
  cases hn : w.state.in_eval_subgraph <;> cases he : fn.is_eval <;>
    simp [tracedApply, backwardCaptureBlock, h1, h2, h3, hn, he,
      List.mem_replicate]

/-- Witness for claim C7 (amended) at a concrete non-nested run. -/
theorem tracedApply_context_edge_iff_witness :
    TraceEvent.contextEdgeSetup ∈ (tracedApply env0 fnSaved world0 []).events
      ↔ (world0.state.in_eval_subgraph = false ∨ fnSaved.is_eval = true) :=
  tracedApply_context_edge_iff env0 fnSaved world0 [] [0] rfl rfl rfl

/-- Claim C8: for every call to `setUpContextEdge`, exactly one select node
over the given composite node at the given slot is appended to the graph, it
is given the opaque handle type, and it is assigned to the
`forward_ctx_select` field of the Eval found by the `Eval::getBackwardEval`
registry lookup (keyed by the inputs and outputs) iff the lookup finds one;
when none is found the select node is still appended and the Eval heap is
unchanged. -/
theorem setUpContextEdge_spec
    (lookup : List Variable → List Variable → Option Nat)
    (g : Graph) (evalFcs : Nat → Option Nat) (node ctx_output_nr : Nat)
    (inputs outputs : List Variable) :
    (setUpContextEdge lookup g evalFcs node ctx_output_nr inputs
        outputs).1.order
        = g.order ++ [g.store.length] ∧
    (setUpContextEdge lookup g evalFcs node ctx_output_nr inputs
        outputs).1.store
        = g.store
            ++ [{ kind := .select node ctx_output_nr, inputs := [],
                  type := some JitType.handle }] ∧
    (setUpContextEdge lookup g evalFcs node ctx_output_nr inputs outputs).2
        = (match lookup inputs outputs with
           | some e =>
               fun x => if x = e then some g.store.length else evalFcs x
           | none => evalFcs) := by
  rcases hbe : lookup inputs outputs with _ | e <;>
    refine ⟨?_, ?_, ?_⟩ <;>
      simp [setUpContextEdge, Graph.setNodeType, hbe, set_cons_append,
        getD_cons_append]

lemma backwardCaptureBlock_events_safe (env : TraceEnv) (fn : Function)
    (n : Bool) (g : Graph) (ef : Nat → Option Nat) (tid no : Nat)
    (ins outs : List Variable) :
    ((backwardCaptureBlock env fn n g ef tid no ins outs).events.all
      fun e => !e.touchesLockOrApply) = true := by
  cases hp : fn.passes_state_transparently <;> cases hn : n <;>
    cases he : fn.is_eval <;> cases hs : fn.saved_variables <;>
      simp [backwardCaptureBlock, hp, hn, he, hs,
        TraceEvent.touchesLockOrApply]

lemma events_shape (ins : List Variable) (n1 n2 : Nat)
    (bev : List TraceEvent)
    (hb : (bev.all fun e => !e.touchesLockOrApply) = true) :
    ∃ pre post,
      TraceEvent.acquire
          :: (TraceEvent.mutate
              :: (List.replicate n1 TraceEvent.mutate ++ [TraceEvent.mutate]))
          ++ [TraceEvent.release, TraceEvent.applyCall ins,
              TraceEvent.acquire]
          ++ List.replicate n2 TraceEvent.mutate ++ bev
          ++ [TraceEvent.release]
        = TraceEvent.acquire :: pre
            ++ TraceEvent.release :: TraceEvent.applyCall ins
            :: TraceEvent.acquire :: post ++ [TraceEvent.release] ∧
      (pre.all fun e => !e.touchesLockOrApply) = true ∧
      (post.all fun e => !e.touchesLockOrApply) = true := by
  refine ⟨TraceEvent.mutate
      :: (List.replicate n1 TraceEvent.mutate ++ [TraceEvent.mutate]),
    List.replicate n2 TraceEvent.mutate ++ bev, ?_, ?_, ?_⟩
  · simp [List.append_assoc]
  · simp [List.all_eq_true, List.mem_append, List.mem_replicate,
      TraceEvent.touchesLockOrApply]
  · rw [List.all_append, hb]
    simp [List.all_eq_true, List.mem_replicate,
      TraceEvent.touchesLockOrApply]

/-- Claim C9: on the non-traceable path of `tracedApply` the underlying
`apply` call never runs while the trace state's exclusive section is held:
the event trace acquires the section, performs only trace-graph mutation,
releases the section immediately before the `apply` call and reacquires it
immediately after, every event between the section boundaries being free of
lock operations and `apply` calls, and the section is released again at
return. -/
theorem tracedApply_lock_discipline (env : TraceEnv) (fn : Function)
    (w : TraceWorld) (inputs : List Variable)
    (h : fn.is_traceable = false) :
    ∃ pre post,
      (tracedApply env fn w inputs).events
        = TraceEvent.acquire :: pre
            ++ TraceEvent.release :: TraceEvent.applyCall inputs
            :: TraceEvent.acquire :: post ++ [TraceEvent.release] ∧
      (pre.all fun e => !e.touchesLockOrApply) = true ∧
      (post.all fun e => !e.touchesLockOrApply) = true := by
  simp only [tracedApply, h, Bool.false_eq_true, if_false]
  exact events_shape inputs inputs.length (fn.apply inputs).length
    ((backwardCaptureBlock env fn w.state.in_eval_subgraph
        (insertSelects w.state.graph.store.length (fn.apply inputs)
          (insertCppOp env w.state fn inputs) w.state.valueTraces).1
        w.evalFcs w.state.graph.store.length (fn.apply inputs).length
        inputs (fn.apply inputs)).events)
    (backwardCaptureBlock_events_safe env fn w.state.in_eval_subgraph
      (insertSelects w.state.graph.store.length (fn.apply inputs)
        (insertCppOp env w.state fn inputs) w.state.valueTraces).1
      w.evalFcs w.state.graph.store.length (fn.apply inputs).length
      inputs (fn.apply inputs))

/-- Witness for claim C9 at a concrete non-traceable run. -/
theorem tracedApply_lock_discipline_witness :
    ∃ pre post,
      (tracedApply env0 fnNoSaved world0 []).events
        = TraceEvent.acquire :: pre
            ++ TraceEvent.release :: TraceEvent.applyCall []
            :: TraceEvent.acquire :: post ++ [TraceEvent.release] ∧
      (pre.all fun e => !e.touchesLockOrApply) = true ∧
      (post.all fun e => !e.touchesLockOrApply) = true :=
  tracedApply_lock_discipline env0 fnNoSaved world0 [] rfl

end torch.autograd
